import Mathlib

/-!
Verification of the bungee-rs crate: a Rust wrapper exposing a block-streaming
interface over the Bungee audio time-stretching engine.

The development shallowly embeds the safe wrapper layer
(src/src/lib.rs, src/src/stretcher.rs, src/src/stream.rs) and the latency-skip
bookkeeping of examples/stream-file.rs.  Machine floats (f32/f64) are modelled
as rationals; raw pointers are modelled symbolically; Rust panics are modelled
by returning none.  The C++ engine behind the bungee-sys FFI boundary is not
part of the Rust sources, so its observable state (input-position accumulator,
fractional output accumulator, reported latency, grain geometry) is modelled
from the specification, as flagged in the relevant doc comments.
-/

namespace BungeeRs

/-- Symbolic model of a raw channel pointer: either null or the start of the
channel buffer at a given index in the caller-supplied planar buffer list. -/
inductive FPtr where
  | null : FPtr
  | buf (channel : Nat) : FPtr
deriving DecidableEq

/-- Stretcher sample rates (bungee-sys lib.rs, struct SampleRates). -/
structure SampleRates where
  input : Int
  output : Int
deriving DecidableEq

namespace Sys

/-- FFI Request (bungee-sys lib.rs): f64 fields as rationals, the one-byte
BungeeBool reset flag as a Nat. -/
structure Request where
  position : ℚ
  speed : ℚ
  pitch : ℚ
  reset : Nat
deriving DecidableEq

/-- FFI InputChunk (bungee-sys lib.rs): two c_int (i32) frame offsets.  Field
names carry a trailing underscore because end is a keyword. -/
structure InputChunk where
  begin_ : Int
  end_ : Int
deriving DecidableEq

end Sys

/-- High-level Request (src/src/lib.rs lines 30-46). -/
structure Request where
  position : ℚ
  speed : ℚ
  pitch : ℚ
  reset : Bool
deriving DecidableEq

/-- From Request for bungee_sys::Request (src/src/lib.rs lines 59-68):
reset becomes byte 1 for true and 0 for false. -/
def Request.toSys (r : Request) : Sys.Request :=
  { position := r.position
    speed := r.speed
    pitch := r.pitch
    reset := if r.reset then 1 else 0 }

/-- From bungee_sys::Request for Request (src/src/lib.rs lines 48-57):
reset becomes true for any non-zero byte. -/
def Request.ofSys (f : Sys.Request) : Request :=
  { position := f.position
    speed := f.speed
    pitch := f.pitch
    reset := f.reset != 0 }

/-- High-level InputChunk (src/src/lib.rs lines 74-78): isize fields, modelled
as unbounded Int. -/
structure InputChunk where
  begin_ : Int
  end_ : Int
deriving DecidableEq

/-- Rust cast x as i32: reduction modulo 2^32 into the signed 32-bit range. -/
def toI32 (x : Int) : Int := (x + 2147483648) % 4294967296 - 2147483648

/-- From InputChunk for bungee_sys::InputChunk (src/src/lib.rs lines 89-96):
each isize bound is cast with as i32. -/
def InputChunk.toSys (c : InputChunk) : Sys.InputChunk :=
  { begin_ := toI32 c.begin_, end_ := toI32 c.end_ }

/-- From bungee_sys::InputChunk for InputChunk (src/src/lib.rs lines 80-87):
each i32 bound is cast with as isize, a sign extension that preserves the
value. -/
def InputChunk.ofSys (c : Sys.InputChunk) : InputChunk :=
  { begin_ := c.begin_, end_ := c.end_ }

/-- Chunk length, per the spec: max(0, end - begin). -/
def InputChunk.length (c : InputChunk) : Nat := (c.end_ - c.begin_).toNat

/-- Modelled from the spec: the C++ Bungee::Stretcher engine instance behind
the FFI boundary is not under src/; the spec describes it as an opaque
stateful unit configured with sample rates and a channel count, whose
specify_grain requests an input segment centred on the request position and
bounded in length by max_input_frame_count. -/
structure EngineStretcher where
  sampleRates : SampleRates
  channelCount : Nat
deriving DecidableEq

/-- Modelled from the spec: half-width of the input segment an engine grain
requests; positive for every configuration. -/
def EngineStretcher.grainHalfLength (e : EngineStretcher) : Nat :=
  e.sampleRates.input.toNat / 4 + 1

/-- Modelled from the spec: the largest number of frames specify_grain might
request (engine operation maxInputFrameCount). -/
def EngineStretcher.maxInputFrameCount (e : EngineStretcher) : Nat :=
  2 * e.grainHalfLength

/-- Modelled from the spec: specify_grain returns the input frame range the
engine needs for this grain, centred on the request position. -/
def EngineStretcher.specifyGrain (e : EngineStretcher) (r : Sys.Request) :
    Sys.InputChunk :=
  { begin_ := ⌊r.position⌋ - e.grainHalfLength
    end_ := ⌊r.position⌋ + e.grainHalfLength }

/-- Modelled from the spec: the engine create entry point returns an opaque
handle or null on allocation failure; modelled as an abstract function so
that construction claims quantify over both outcomes. -/
def EngineCreate : Type :=
  SampleRates → Nat → Nat → Option EngineStretcher

/-- Modelled from the spec: the engine create call when allocation succeeds. -/
def engineCreateOk : EngineCreate :=
  fun srs ch _hop => some { sampleRates := srs, channelCount := ch }

/-- High-level Stretcher (src/src/stretcher.rs lines 10-14): engine handle
plus the configured sample rate and channel count. -/
structure Stretcher where
  inner : EngineStretcher
  sample_rate : Nat
  num_channels : Nat
deriving DecidableEq

/-- Stretcher::new (src/src/stretcher.rs lines 28-54): rejects a zero sample
rate, then a zero channel count, then a null engine handle; otherwise builds
the wrapper.  The engine create call is passed in as a parameter since the
engine is behind the FFI boundary. -/
def Stretcher.new (sample_rate num_channels : Nat) (create : EngineCreate) :
    Except String Stretcher :=
  if sample_rate = 0 then .error "Invalid sample rate"
  else if num_channels = 0 then .error "Invalid channel count"
  else
    match create { input := (sample_rate : Int), output := (sample_rate : Int) }
        num_channels 0 with
    | none => .error "Failed to create Bungee stretcher"
    | some inner =>
      .ok { inner := inner, sample_rate := sample_rate, num_channels := num_channels }

/-- Stretcher::max_input_frame_count (src/src/stretcher.rs lines 74-76). -/
def Stretcher.max_input_frame_count (st : Stretcher) : Nat :=
  st.inner.maxInputFrameCount

/-- Stretcher::specify_grain (src/src/stretcher.rs lines 86-91): converts the
request through the FFI type, queries the engine, converts the chunk back. -/
def Stretcher.specify_grain (st : Stretcher) (r : Request) : InputChunk :=
  InputChunk.ofSys (st.inner.specifyGrain r.toSys)

/-- Returns true when an Except value is an error. -/
def isError {ε α : Type} : Except ε α → Bool
  | .error _ => true
  | .ok _ => false

/-- Modelled from the spec: observable state of the C++ Bungee::Stream block
driver (bungee-sys stream.rs binds it; its implementation is not under src/):
cumulative input frames submitted, cumulative fractional output frames, and
the engine-reported latency in input-frame units. -/
structure EngineStream where
  inputPosition : Int
  outputFrac : ℚ
  latency : ℚ
deriving DecidableEq

/-- Modelled from the spec: the block driver consumes input_frame_count
frames, adds output_frame_count to its fractional output accumulator, and
returns the dithered integer frame count, floor or ceil of the fractional
request depending on the accumulator phase. -/
def EngineStream.process (e : EngineStream) (_inputPointersArg : Option (List FPtr))
    (_outputPointers : List FPtr) (input_frame_count : Nat)
    (output_frame_count : ℚ) (_pitch : ℚ) : Nat × EngineStream :=
  let produced : Int := ⌊e.outputFrac + output_frame_count⌋ - ⌊e.outputFrac⌋
  (produced.toNat,
    { e with
      inputPosition := e.inputPosition + input_frame_count
      outputFrac := e.outputFrac + output_frame_count })

/-- Modelled from the spec: fresh block driver state created by
bungee_sys::stream::create, with zeroed accumulators and the configuration's
reported latency. -/
def EngineStream.init (st : EngineStretcher) : EngineStream :=
  { inputPosition := 0, outputFrac := 0, latency := (st.grainHalfLength : ℚ) }

/-- High-level Stream (src/src/stream.rs lines 11-17): owned stretcher, the
block driver handle, and the two reusable per-channel pointer arrays. -/
structure Stream where
  stretcher : Stretcher
  engine : EngineStream
  input_pointers : List FPtr
  output_pointers : List FPtr
deriving DecidableEq

/-- Stream::num_channels (src/src/stream.rs lines 54-56). -/
def Stream.num_channels (s : Stream) : Nat := s.stretcher.num_channels

/-- Stream::input_position (src/src/stream.rs lines 148-150). -/
def Stream.input_position (s : Stream) : Int := s.engine.inputPosition

/-- Stream::latency (src/src/stream.rs lines 158-160). -/
def Stream.latency (s : Stream) : ℚ := s.engine.latency

/-- Stream::new (src/src/stream.rs lines 24-46): builds the stretcher (which
can fail), creates the block driver (a C++ allocation that never yields a
null handle), and fills both pointer arrays with nulls. -/
def Stream.new (sample_rate num_channels _max_input_frame_count : Nat)
    (create : EngineCreate) : Except String Stream :=
  match Stretcher.new sample_rate num_channels create with
  | .error e => .error e
  | .ok stretcher =>
    .ok { stretcher := stretcher
          engine := EngineStream.init stretcher.inner
          input_pointers := List.replicate num_channels FPtr.null
          output_pointers := List.replicate num_channels FPtr.null }

/-- The pointer-assignment loop of Stream::process: for (p, c) in
pointers.iter_mut().zip(channels) sets each of the first min(|pointers|, n)
slots to the start of the corresponding channel buffer and leaves the rest
untouched. -/
def assignBufPtrs (ps : List FPtr) (n : Nat) : List FPtr :=
  (List.range (min ps.length n)).map FPtr.buf ++ ps.drop (min ps.length n)

/-- Stream::process (src/src/stream.rs lines 69-145).  Each assert! of the
source is modelled by returning none (a Rust panic); on success the produced
frame count and the updated stream are returned. -/
def Stream.process (s : Stream) (input_channels : Option (List (List ℚ)))
    (output_channels : List (List ℚ)) (input_frame_count : Nat)
    (output_frame_count : ℚ) (pitch : ℚ) : Option (Nat × Stream) :=
  if input_frame_count = 0 then none
  else if output_frame_count ≤ 0 then none
  else if (match input_channels with
    | some ins =>
      decide (ins.length ≠ s.num_channels) ||
        ins.any (fun c => decide (c.length < input_frame_count))
    | none => false) then none
  else
    let input_pointers :=
      match input_channels with
      | some ins => assignBufPtrs s.input_pointers ins.length
      | none => s.input_pointers.map fun _ => FPtr.null
    if output_channels.length ≠ s.num_channels then none
    else
      let required_output_len := (⌈output_frame_count⌉).toNat
      if output_channels.any (fun c => decide (c.length < required_output_len)) then
        none
      else
        let output_pointers := assignBufPtrs s.output_pointers output_channels.length
        let step := s.engine.process
          (if input_channels.isNone then none else some input_pointers)
          output_pointers input_frame_count output_frame_count pitch
        some (step.1,
          { s with
            engine := step.2
            input_pointers := input_pointers
            output_pointers := output_pointers })

/-- Arguments of one Stream::process call, for reasoning about call
sequences. -/
structure ProcCall where
  input : Option (List (List ℚ))
  output : List (List ℚ)
  input_frame_count : Nat
  output_frame_count : ℚ
  pitch : ℚ

/-- Runs a sequence of Stream::process calls, failing if any call panics. -/
def runProcesses : Stream → List ProcCall → Option Stream
  | s, [] => some s
  | s, c :: cs =>
    match Stream.process s c.input c.output c.input_frame_count
        c.output_frame_count c.pitch with
    | none => none
    | some (_, s1) => runProcesses s1 cs

/-- Modelled from the claim C4 and spec section 4.2: a block streamer that
itself performs latency compensation would carry a lazily computed discard
budget next to the stream state. -/
structure CompStream where
  base : Stream
  remainingDiscard : Option Nat

/-- Modelled from the claim C4 and spec section 4.2: process with built-in
latency compensation.  On the first call the engine-reported latency is
divided by the speed (input frames per output frame) and remembered as a
discard budget; each call's produced frames are first consumed against the
remaining budget before being exposed to the caller. -/
def CompStream.process (cs : CompStream) (input_channels : Option (List (List ℚ)))
    (output_channels : List (List ℚ)) (input_frame_count : Nat)
    (output_frame_count : ℚ) (pitch : ℚ) : Option (Nat × CompStream) :=
  match cs.base.process input_channels output_channels input_frame_count
      output_frame_count pitch with
  | none => none
  | some (produced, base1) =>
    let speed : ℚ := (input_frame_count : ℚ) / output_frame_count
    let remaining := cs.remainingDiscard.getD (⌊base1.engine.latency / speed⌋).toNat
    let discard := min remaining produced
    some (produced - discard, { base := base1, remainingDiscard := some (remaining - discard) })

/-- The latency-skip bookkeeping the caller performs in
examples/stream-file.rs lines 108-118: the discard budget is lazily set to
the truncation of latency divided by speed on the first call, and each call's
processed frames are consumed against the remaining budget; returns the
frames to skip for this call and the updated budget. -/
def exampleLatencySkip (remaining_latency_frames : Option Nat) (latency : ℚ)
    (speed : ℚ) (processed_frames : Nat) : Nat × Option Nat :=
  let remaining_frames_to_skip :=
    remaining_latency_frames.getD (⌊latency / speed⌋).toNat
  let frames_to_skip := min remaining_frames_to_skip processed_frames
  (frames_to_skip, some (remaining_frames_to_skip - frames_to_skip))

/-- A concrete stretcher configuration used by witnesses. -/
def demoStretcher : Stretcher :=
  { inner := { sampleRates := { input := 44100, output := 44100 }, channelCount := 1 }
    sample_rate := 44100
    num_channels := 1 }

/-- A concrete stream with a reported engine latency of 100 input frames,
used by witnesses and counterexamples. -/
def demoStream : Stream :=
  { stretcher := demoStretcher
    engine := { inputPosition := 0, outputFrac := 0, latency := 100 }
    input_pointers := [FPtr.null]
    output_pointers := [FPtr.null] }

/-- The stream state after one successful one-frame process call on
demoStream. -/
def demoAfter : Stream :=
  { stretcher := demoStretcher
    engine := { inputPosition := 1, outputFrac := 1, latency := 100 }
    input_pointers := [FPtr.buf 0]
    output_pointers := [FPtr.buf 0] }

/-! ## Helper lemmas -/

/-- Characterization of a successful Stream::process call: the preconditions
hold, the produced count is the engine's dithered count, the engine
accumulators advance, and the pointer arrays are rebuilt from the supplied
buffers. -/
theorem Stream.process_some (s : Stream) (ins : Option (List (List ℚ)))
    (outs : List (List ℚ)) (n : Nat) (ofc pitch : ℚ) (k : Nat) (s1 : Stream)
    (h : Stream.process s ins outs n ofc pitch = some (k, s1)) :
    0 < n ∧ 0 < ofc ∧
    k = (⌊s.engine.outputFrac + ofc⌋ - ⌊s.engine.outputFrac⌋).toNat ∧
    s1.engine.inputPosition = s.engine.inputPosition + n ∧
    s1.engine.outputFrac = s.engine.outputFrac + ofc ∧
    s1.engine.latency = s.engine.latency ∧
    s1.stretcher = s.stretcher ∧
    (ins = none → s1.input_pointers = s.input_pointers.map fun _ => FPtr.null) ∧
    (∀ l, ins = some l → l.length = s.num_channels ∧
      s1.input_pointers = assignBufPtrs s.input_pointers l.length) := by
  rcases ins with _ | l
  · simp only [Stream.process] at h
    by_cases h1 : n = 0
    · rw [if_pos h1] at h
      simp at h
    rw [if_neg h1] at h
    by_cases h2 : ofc ≤ 0
    · rw [if_pos h2] at h
      simp at h
    rw [if_neg h2, if_neg Bool.false_ne_true] at h
    by_cases h4 : outs.length ≠ s.num_channels
    · rw [if_pos h4] at h
      simp at h
    rw [if_neg h4] at h
    by_cases h5 : (outs.any fun c => decide (c.length < (⌈ofc⌉).toNat)) = true
    · rw [if_pos h5] at h
      simp at h
    rw [if_neg h5] at h
    simp only [EngineStream.process, Option.some.injEq, Prod.mk.injEq] at h
    obtain ⟨hk, hs⟩ := h
    subst hs
    refine ⟨Nat.pos_of_ne_zero h1, lt_of_not_le h2, hk.symm, ?_⟩
    simp
  · simp only [Stream.process] at h
    by_cases h1 : n = 0
    · rw [if_pos h1] at h
      simp at h
    rw [if_neg h1] at h
    by_cases h2 : ofc ≤ 0
    · rw [if_pos h2] at h
      simp at h
    rw [if_neg h2] at h
    by_cases h3a : l.length ≠ s.num_channels
    · rw [if_pos (by rw [Bool.or_eq_true]; exact Or.inl (decide_eq_true h3a))] at h
      simp at h
    by_cases h3b : (l.any fun c => decide (c.length < n)) = true
    · rw [if_pos (by rw [Bool.or_eq_true]; exact Or.inr h3b)] at h
      simp at h
    have hin : ¬((decide (l.length ≠ s.num_channels) ||
        l.any fun c => decide (c.length < n)) = true) := by
      rw [Bool.or_eq_true]
      rintro (hp | hp)
      · exact h3a (of_decide_eq_true hp)
      · exact h3b hp
    rw [if_neg hin] at h
    by_cases h4 : outs.length ≠ s.num_channels
    · rw [if_pos h4] at h
      simp at h
    rw [if_neg h4] at h
    by_cases h5 : (outs.any fun c => decide (c.length < (⌈ofc⌉).toNat)) = true
    · rw [if_pos h5] at h
      simp at h
    rw [if_neg h5] at h
    simp only [EngineStream.process, Option.some.injEq, Prod.mk.injEq] at h
    obtain ⟨hk, hs⟩ := h
    subst hs
    simp only [not_not] at h3a
    refine ⟨Nat.pos_of_ne_zero h1, lt_of_not_le h2, hk.symm, ?_⟩
    simp [h3a]

/-- Evaluation of one concrete successful process call on demoStream, shared
by witnesses. -/
theorem demo_process_eq :
    Stream.process demoStream (some [[0]]) [[0]] 1 1 1 = some (1, demoAfter) := by
  norm_num [Stream.process, demoStream, demoStretcher, demoAfter,
    Stream.num_channels, EngineStream.process, assignBufPtrs,
    show List.range 1 = [0] from rfl]

/-! ## Claim theorems -/

/-- C1: a Stream::process call fails fatally (modelled by none) exactly when
input_frame_count is zero, or output_frame_count is non-positive, or (when
input is present) the input channel count differs from the configured channel
count or some input channel buffer holds fewer than input_frame_count
samples, or the output channel count differs from the configured channel
count or some output channel buffer holds fewer than ceil(output_frame_count)
samples; under the stated preconditions no failure branch is reachable. -/
theorem stream_process_fatal_iff (s : Stream) (ins : Option (List (List ℚ)))
    (outs : List (List ℚ)) (n : Nat) (ofc pitch : ℚ) :
    Stream.process s ins outs n ofc pitch = none ↔
      n = 0 ∨ ofc ≤ 0 ∨
      (∃ l, ins = some l ∧ (l.length ≠ s.num_channels ∨ ∃ c ∈ l, c.length < n)) ∨
      outs.length ≠ s.num_channels ∨ (∃ c ∈ outs, c.length < (⌈ofc⌉).toNat) := by
  rcases ins with _ | l
  · simp only [Stream.process]
    by_cases h1 : n = 0
    · rw [if_pos h1]; simp [h1]
    rw [if_neg h1]
    by_cases h2 : ofc ≤ 0
    · rw [if_pos h2]; simp [h1, h2]
    rw [if_neg h2, if_neg Bool.false_ne_true]
    by_cases h4 : outs.length ≠ s.num_channels
    · rw [if_pos h4]; simp [h1, h2, h4]
    rw [if_neg h4]
    by_cases h5 : (outs.any fun c => decide (c.length < (⌈ofc⌉).toNat)) = true
    · rw [if_pos h5]
      simp only [List.any_eq_true, decide_eq_true_eq, Int.lt_toNat] at h5
      simp [h1, h2, h4, h5, Int.lt_toNat]
    · rw [if_neg h5]
      simp only [List.any_eq_true, decide_eq_true_eq, Int.lt_toNat] at h5
      push_neg at h5
      simp [h1, h2, h4, Int.lt_toNat]
      exact h5
  · simp only [Stream.process]
    by_cases h1 : n = 0
    · rw [if_pos h1]; simp [h1]
    rw [if_neg h1]
    by_cases h2 : ofc ≤ 0
    · rw [if_pos h2]; simp [h1, h2]
    rw [if_neg h2]
    by_cases h3a : l.length ≠ s.num_channels
    · rw [if_pos (by rw [Bool.or_eq_true]; exact Or.inl (decide_eq_true h3a))]
      simp [h1, h2, h3a]
    by_cases h3b : (l.any fun c => decide (c.length < n)) = true
    · rw [if_pos (by rw [Bool.or_eq_true]; exact Or.inr h3b)]
      simp only [List.any_eq_true, decide_eq_true_eq] at h3b
      simp [h1, h2, h3b]
    have hin : ¬((decide (l.length ≠ s.num_channels) ||
        l.any fun c => decide (c.length < n)) = true) := by
      rw [Bool.or_eq_true]
      rintro (hp | hp)
      · exact h3a (of_decide_eq_true hp)
      · exact h3b hp
    rw [if_neg hin]
    simp only [List.any_eq_true, decide_eq_true_eq] at h3b
    by_cases h4 : outs.length ≠ s.num_channels
    · rw [if_pos h4]; simp [h1, h2, h3a, h3b, h4]
    rw [if_neg h4]
    by_cases h5 : (outs.any fun c => decide (c.length < (⌈ofc⌉).toNat)) = true
    · rw [if_pos h5]
      simp only [List.any_eq_true, decide_eq_true_eq, Int.lt_toNat] at h5
      simp [h1, h2, h3a, h3b, h4, h5, Int.lt_toNat]
    · rw [if_neg h5]
      simp only [List.any_eq_true, decide_eq_true_eq, Int.lt_toNat] at h5
      push_neg at h5
      simp [h1, h2, h3a, h3b, h4, Int.lt_toNat]
      exact h5

/-- C2: a successful Stream::process call returns floor(output_frame_count)
or ceil(output_frame_count) frames, and in particular never more than
ceil(output_frame_count). -/
theorem stream_process_count_dithered (s : Stream) (ins : Option (List (List ℚ)))
    (outs : List (List ℚ)) (n : Nat) (ofc pitch : ℚ) (k : Nat) (s1 : Stream)
    (h : Stream.process s ins outs n ofc pitch = some (k, s1)) :
    (k = (⌊ofc⌋).toNat ∨ k = (⌈ofc⌉).toNat) ∧ k ≤ (⌈ofc⌉).toNat := by
  obtain ⟨-, hofc, hk, -⟩ := Stream.process_some s ins outs n ofc pitch k s1 h
  have hlow : ⌊s.engine.outputFrac⌋ + ⌊ofc⌋ ≤ ⌊s.engine.outputFrac + ofc⌋ := by
    apply Int.le_floor.mpr
    push_cast
    exact add_le_add (Int.floor_le _) (Int.floor_le _)
  have hupp : ⌊s.engine.outputFrac + ofc⌋ ≤ ⌊s.engine.outputFrac⌋ + ⌈ofc⌉ := by
    rw [← Int.lt_add_one_iff, Int.floor_lt]
    push_cast
    linarith [Int.lt_floor_add_one s.engine.outputFrac, Int.le_ceil ofc]
  have hcf : ⌈ofc⌉ ≤ ⌊ofc⌋ + 1 := Int.ceil_le_floor_add_one ofc
  have hfc : ⌊ofc⌋ ≤ ⌈ofc⌉ := Int.floor_le_ceil ofc
  have hf0 : 0 ≤ ⌊ofc⌋ := Int.floor_nonneg.mpr hofc.le
  rw [hk]
  omega

/-- C2 witness: the one-frame call on demoStream produces exactly one frame,
which is both floor and ceil of the requested fractional count 1. -/
theorem stream_process_count_dithered_w :
    ((1 : Nat) = (⌊(1 : ℚ)⌋).toNat ∨ (1 : Nat) = (⌈(1 : ℚ)⌉).toNat) ∧
      (1 : Nat) ≤ (⌈(1 : ℚ)⌉).toNat :=
  stream_process_count_dithered demoStream (some [[0]]) [[0]] 1 1 1 1 demoAfter
    demo_process_eq

/-- C3: both constructors return a recoverable error exactly when the sample
rate is zero, the channel count is zero, or the engine create call returns
a null handle; for all other inputs construction succeeds. -/
theorem construction_error_iff (sr ch mifc : Nat) (create : EngineCreate) :
    (isError (Stretcher.new sr ch create) = true ↔
      sr = 0 ∨ ch = 0 ∨
        create { input := (sr : Int), output := (sr : Int) } ch 0 = none) ∧
    (isError (Stream.new sr ch mifc create) = true ↔
      sr = 0 ∨ ch = 0 ∨
        create { input := (sr : Int), output := (sr : Int) } ch 0 = none) := by
  by_cases h1 : sr = 0
  · simp [Stretcher.new, Stream.new, isError, h1]
  by_cases h2 : ch = 0
  · simp [Stretcher.new, Stream.new, isError, h1, h2]
  cases hc : create { input := (sr : Int), output := (sr : Int) } ch 0 <;>
    simp [Stretcher.new, Stream.new, isError, h1, h2, hc]

/-- The calls used by the C5 witness. -/
def demoCalls : List ProcCall :=
  [{ input := some [[0, 0]], output := [[0, 0]], input_frame_count := 2,
     output_frame_count := 2, pitch := 1 },
   { input := some [[0, 0, 0]], output := [[0, 0, 0]], input_frame_count := 3,
     output_frame_count := 3, pitch := 1 }]

/-- The stream state after running demoCalls on demoStream. -/
def demoResult : Stream :=
  { stretcher := demoStretcher
    engine := { inputPosition := 5, outputFrac := 5, latency := 100 }
    input_pointers := [FPtr.buf 0]
    output_pointers := [FPtr.buf 0] }

/-- C4 counterexample: on a stream whose engine reports a latency of 100
input frames, the first Stream::process call exposes all produced frames
(returning 1), whereas a block streamer that itself consumed produced frames
against a latency-derived discard budget (CompStream, modelled from the
claim) would expose 0 of them; so Stream does not itself perform latency
compensation. -/
theorem stream_no_compensation_cex :
    (Stream.process demoStream (some [[0]]) [[0]] 1 1 1).map Prod.fst = some 1 ∧
    (CompStream.process { base := demoStream, remainingDiscard := none }
        (some [[0]]) [[0]] 1 1 1).map Prod.fst = some 0 := by
  constructor
  · rw [demo_process_eq]; rfl
  · simp only [CompStream.process, demo_process_eq]
    norm_num [demoAfter]

/-- C4 amended: Stream::process itself performs no latency compensation and
returns the engine's raw produced frame count; the discard-budget logic is
performed by the caller, as in examples/stream-file.rs, which lazily
initializes the budget to the truncation of latency divided by speed and
consumes each call's produced frames against the remaining budget. -/
theorem stream_latency_compensation_in_caller (s : Stream)
    (ins : Option (List (List ℚ))) (outs : List (List ℚ)) (n : Nat)
    (ofc pitch : ℚ) (k : Nat) (s1 : Stream)
    (h : Stream.process s ins outs n ofc pitch = some (k, s1)) :
    k = (s.engine.process none [] n ofc pitch).1 ∧
    ∀ rem : Nat, ∀ lat speed : ℚ,
      (exampleLatencySkip (some rem) lat speed k).1 = min rem k ∧
      (exampleLatencySkip (some rem) lat speed k).2 = some (rem - min rem k) ∧
      (exampleLatencySkip none lat speed k).1 = min (⌊lat / speed⌋).toNat k := by
  obtain ⟨-, -, hk, -⟩ := Stream.process_some s ins outs n ofc pitch k s1 h
  refine ⟨by rw [hk]; rfl, ?_⟩
  intro rem lat speed
  exact ⟨rfl, rfl, rfl⟩

/-- C4 amended witness at the concrete one-frame call on demoStream. -/
theorem stream_latency_compensation_in_caller_w :
    (1 : Nat) = (demoStream.engine.process none [] 1 1 1).1 ∧
    ∀ rem : Nat, ∀ lat speed : ℚ,
      (exampleLatencySkip (some rem) lat speed 1).1 = min rem 1 ∧
      (exampleLatencySkip (some rem) lat speed 1).2 = some (rem - min rem 1) ∧
      (exampleLatencySkip none lat speed 1).1 = min (⌊lat / speed⌋).toNat 1 :=
  stream_latency_compensation_in_caller demoStream (some [[0]]) [[0]] 1 1 1 1
    demoAfter demo_process_eq

/-- C5: over any successful sequence of Stream::process calls the input
position advances by exactly the integer sum of the submitted input frame
counts, and it never decreases. -/
theorem stream_input_position_sum (s : Stream) (cs : List ProcCall) (s1 : Stream)
    (h : runProcesses s cs = some s1) :
    s1.input_position = s.input_position +
        (cs.map fun c => (c.input_frame_count : Int)).sum ∧
    s.input_position ≤ s1.input_position := by
  induction cs generalizing s with
  | nil =>
    simp only [runProcesses, Option.some.injEq] at h
    subst h
    simp [Stream.input_position]
  | cons c cs ih =>
    simp only [runProcesses] at h
    cases hp : Stream.process s c.input c.output c.input_frame_count
        c.output_frame_count c.pitch with
    | none => rw [hp] at h; simp at h
    | some pr =>
      obtain ⟨k, sm⟩ := pr
      simp only [hp] at h
      obtain ⟨-, -, -, hpos, -⟩ := Stream.process_some _ _ _ _ _ _ _ _ hp
      obtain ⟨ih1, ih2⟩ := ih sm h
      simp only [List.map_cons, List.sum_cons, Stream.input_position] at ih1 ih2 ⊢
      omega

/-- C5 witness: two calls submitting 2 and 3 frames leave input_position at
exactly 5, which is not below its starting value 0. -/
theorem stream_input_position_sum_w :
    demoResult.input_position = demoStream.input_position +
        (demoCalls.map fun c => (c.input_frame_count : Int)).sum ∧
    demoStream.input_position ≤ demoResult.input_position := by
  have h : runProcesses demoStream demoCalls = some demoResult := by
    norm_num [runProcesses, Stream.process, demoStream, demoStretcher, demoResult,
      demoCalls, Stream.num_channels, EngineStream.process, assignBufPtrs,
      show List.range 1 = [0] from rfl]
  exact stream_input_position_sum demoStream demoCalls demoResult h

/-- C6: after a successful process call, absent input leaves every
per-channel input pointer null (and the engine is handed a null pointer
array, signaling mute), while present input sets the i-th input pointer to
the start of the i-th caller-supplied channel buffer. -/
theorem stream_input_pointers_spec (s : Stream) (ins : Option (List (List ℚ)))
    (outs : List (List ℚ)) (n : Nat) (ofc pitch : ℚ) (k : Nat) (s1 : Stream)
    (hlen : s.input_pointers.length = s.num_channels)
    (h : Stream.process s ins outs n ofc pitch = some (k, s1)) :
    (ins = none → s1.input_pointers = List.replicate s.num_channels FPtr.null) ∧
    (∀ l, ins = some l →
      s1.input_pointers = (List.range s.num_channels).map FPtr.buf) := by
  obtain ⟨-, -, -, -, -, -, -, hnone, hsome⟩ :=
    Stream.process_some s ins outs n ofc pitch k s1 h
  constructor
  · intro he
    rw [hnone he, ← hlen]
    exact List.map_const' _ FPtr.null
  · intro l hl
    obtain ⟨hll, hip⟩ := hsome l hl
    rw [hip, hll]
    simp [assignBufPtrs, ← hlen]

/-- C6 witness at the concrete one-frame call on demoStream. -/
theorem stream_input_pointers_spec_w :
    ((some [[(0 : ℚ)]] : Option (List (List ℚ))) = none →
      demoAfter.input_pointers = List.replicate demoStream.num_channels FPtr.null) ∧
    (∀ l, (some [[(0 : ℚ)]] : Option (List (List ℚ))) = some l →
      demoAfter.input_pointers = (List.range demoStream.num_channels).map FPtr.buf) :=
  stream_input_pointers_spec demoStream (some [[0]]) [[0]] 1 1 1 1 demoAfter
    (by rfl) demo_process_eq

/-- C7: for every positive sample rate and channel count, stretcher
construction succeeds, max_input_frame_count is strictly positive, and it
bounds the length of every input chunk specify_grain requests. -/
theorem stretcher_max_input_frame_count_bound (sr ch : Nat)
    (hsr : 0 < sr) (hch : 0 < ch) :
    ∃ st, Stretcher.new sr ch engineCreateOk = .ok st ∧
      0 < st.max_input_frame_count ∧
      ∀ r : Request, (st.specify_grain r).length ≤ st.max_input_frame_count := by
  refine ⟨⟨⟨⟨(sr : Int), (sr : Int)⟩, ch⟩, sr, ch⟩, ?_, ?_, ?_⟩
  · simp [Stretcher.new, engineCreateOk, hsr.ne', hch.ne']
  · simp only [Stretcher.max_input_frame_count, EngineStretcher.maxInputFrameCount,
      EngineStretcher.grainHalfLength]
    omega
  · intro r
    simp only [Stretcher.specify_grain, EngineStretcher.specifyGrain,
      InputChunk.ofSys, InputChunk.length, Stretcher.max_input_frame_count,
      EngineStretcher.maxInputFrameCount, EngineStretcher.grainHalfLength]
    omega

/-- C7 witness at the concrete configuration 44100 Hz, 1 channel. -/
theorem stretcher_max_input_frame_count_bound_w :
    (0 < 44100 ∧ 0 < 1) ∧
    ∃ st, Stretcher.new 44100 1 engineCreateOk = .ok st ∧
      0 < st.max_input_frame_count ∧
      ∀ r : Request, (st.specify_grain r).length ≤ st.max_input_frame_count :=
  ⟨⟨by norm_num, by norm_num⟩,
    stretcher_max_input_frame_count_bound 44100 1 (by norm_num) (by norm_num)⟩

/-- C9: converting a high-level Request to the FFI type and back is the
identity on position, speed, pitch and reset; reset true maps to the FFI
byte 1 and false to 0, and any non-zero FFI byte maps back to true. -/
theorem request_roundtrip (r : Request) (f : Sys.Request) :
    Request.ofSys r.toSys = r ∧
    (r.toSys).reset = (if r.reset then 1 else 0) ∧
    (Request.ofSys f).position = f.position ∧
    (Request.ofSys f).speed = f.speed ∧
    (Request.ofSys f).pitch = f.pitch ∧
    ((Request.ofSys f).reset = true ↔ f.reset ≠ 0) := by
  refine ⟨?_, rfl, rfl, rfl, rfl, ?_⟩
  · cases r with
    | mk p sp pi rs => cases rs <;> simp [Request.toSys, Request.ofSys]
  · simp [Request.ofSys]

/-- C10: the high-level to FFI InputChunk conversion reduces each isize
bound modulo 2^32 (sign-extended) via the as-i32 cast, so the round trip is
the identity exactly when both bounds fit in the i32 range, and otherwise
silently changes the chunk bounds. -/
theorem inputchunk_roundtrip (c : InputChunk) :
    InputChunk.ofSys c.toSys =
      { begin_ := toI32 c.begin_, end_ := toI32 c.end_ } ∧
    (InputChunk.ofSys c.toSys = c ↔
      (-2147483648 ≤ c.begin_ ∧ c.begin_ < 2147483648 ∧
        -2147483648 ≤ c.end_ ∧ c.end_ < 2147483648)) := by
  refine ⟨rfl, ?_⟩
  cases c with
  | mk b e =>
    simp only [InputChunk.ofSys, InputChunk.toSys, InputChunk.mk.injEq]
    unfold toI32
    omega

end BungeeRs
